import Mathlib

/-!
Verification of the rust-png repository against its specification.

Each Rust function relevant to the claims is shallowly embedded as a Lean
definition; machine integers are modelled as `Nat` with explicit wrapping
(`% 256`, `% 2^32`) where the Rust code wraps, `i16` arithmetic as `Int`
(the inputs are bytes, so no overflow occurs), and fallible code returns
`Except String`.  Definitions follow the source files under `src/src/`;
the few definitions that follow the specification text instead are marked
`Modelled from the spec:` in their doc comment.
-/

/-! ## Paeth predictor (src/filter.rs lines 8-21)

`paeth_predictor(a,b,c)` computes `p = a + b - c` in `i16` arithmetic and
the three absolute differences, then selects `a`, `b` or `c`.  For byte
inputs every intermediate fits in `i16`, so `Int` is a faithful model. -/

def paeth_predictor (a b c : Nat) : Nat :=
  let p : Int := (a : Int) + (b : Int) - (c : Int)
  let pa : Nat := (p - (a : Int)).natAbs
  let pb : Nat := (p - (b : Int)).natAbs
  let pc : Nat := (p - (c : Int)).natAbs
  if pa ≤ pb ∧ pa ≤ pc then a
  else if pb ≤ pc then b
  else c

/-- The distance `|p - x|` with `p = a + b - c` computed in signed
arithmetic, as in the specification's description of the Paeth filter. -/
def paeth_dist (a b c x : Nat) : Nat :=
  (((a : Int) + (b : Int) - (c : Int)) - (x : Int)).natAbs

/-- The property claimed for the Paeth predictor: the result is one of the
three inputs, it minimizes the distance to `p = a + b - c`, ties are broken
in the order `a`, then `b`, then `c`, and `paeth(0,0,0) = 0`. -/
def PaethSpec (a b c : Nat) : Prop :=
  (paeth_predictor a b c = a ∨ paeth_predictor a b c = b ∨ paeth_predictor a b c = c)
  ∧ paeth_dist a b c (paeth_predictor a b c) ≤ paeth_dist a b c a
  ∧ paeth_dist a b c (paeth_predictor a b c) ≤ paeth_dist a b c b
  ∧ paeth_dist a b c (paeth_predictor a b c) ≤ paeth_dist a b c c
  ∧ (paeth_dist a b c a ≤ paeth_dist a b c b → paeth_dist a b c a ≤ paeth_dist a b c c →
      paeth_predictor a b c = a)
  ∧ (paeth_dist a b c b < paeth_dist a b c a → paeth_dist a b c b ≤ paeth_dist a b c c →
      paeth_predictor a b c = b)
  ∧ (paeth_dist a b c c < paeth_dist a b c a → paeth_dist a b c c < paeth_dist a b c b →
      paeth_predictor a b c = c)
  ∧ paeth_predictor 0 0 0 = 0

/-! ## Big-endian u16 packing helpers (src/utils.rs lines 87-104) -/

/-- Shallow embedding of `u16_to_u8_array`: each `u16` value `v` (so
`v < 65536`) is emitted as high byte `v >> 8` then low byte `v & 0xff`. -/
def u16_to_u8_array : List Nat → List Nat
  | [] => []
  | v :: rest => v / 256 :: v % 256 :: u16_to_u8_array rest

/-- Shallow embedding of `u8_to_u16_array`: `chunks_exact(2)` recombines
byte pairs big-endian, `(chunk[0] << 8) | chunk[1]`; a trailing odd byte is
dropped.  For bytes the `|` of disjoint bit ranges is addition. -/
def u8_to_u16_array : List Nat → List Nat
  | b0 :: b1 :: rest => (b0 * 256 + b1) :: u8_to_u16_array rest
  | _ => []

theorem u8_to_u16_of_u16_to_u8 :
    ∀ v : List Nat, (∀ x ∈ v, x < 65536) →
      u8_to_u16_array (u16_to_u8_array v) = v := by
  intro v hv
  induction v with
  | nil => rfl
  | cons x rest ih =>
    have hx : x < 65536 := hv x (List.mem_cons_self x rest)
    have hrest : ∀ y ∈ rest, y < 65536 := fun y hy => hv y (List.mem_cons_of_mem x hy)
    simp only [u16_to_u8_array, u8_to_u16_array, ih hrest]
    congr 1
    omega

theorem u16_to_u8_of_u8_to_u16 :
    ∀ bs : List Nat, (∀ x ∈ bs, x < 256) → bs.length % 2 = 0 →
      u16_to_u8_array (u8_to_u16_array bs) = bs
  | [], _, _ => rfl
  | [x], _, h => by simp at h
  | x :: y :: rest, hb, h => by
    have hx : x < 256 := hb x (by simp)
    have hy : y < 256 := hb y (by simp)
    have hrest : ∀ z ∈ rest, z < 256 := fun z hz => hb z (by simp [hz])
    have hlen : rest.length % 2 = 0 := by
      simp only [List.length_cons] at h
      omega
    simp only [u8_to_u16_array, u16_to_u8_array,
      u16_to_u8_of_u8_to_u16 rest hrest hlen]
    have h1 : (x * 256 + y) / 256 = x := by omega
    have h2 : (x * 256 + y) % 256 = y := by omega
    rw [h1, h2]

/-- C5: for every triple of bytes `(a,b,c)`, `paeth_predictor` computes
`p = a + b - c` in signed arithmetic and returns whichever of `a`, `b`, `c`
minimizes `|p-a|`, `|p-b|`, `|p-c|`, breaking ties in the order `a` first,
then `b`, then `c`; in particular `paeth_predictor 0 0 0 = 0`, and whenever
`|p-a| = |p-b|` are jointly minimal the result is `a`. -/
theorem paeth_predictor_minimizes (a b c : Nat)
    (ha : a < 256) (hb : b < 256) (hc : c < 256) : PaethSpec a b c := by
  refine ⟨?_, ?_, ?_, ?_, ?_, ?_, ?_, by decide⟩ <;>
    simp only [paeth_predictor, paeth_dist] <;>
    split_ifs <;>
    first
      | exact Or.inl rfl
      | exact Or.inr (Or.inl rfl)
      | exact Or.inr (Or.inr rfl)
      | omega

/-- Witness for C5 at the concrete input `(a,b,c) = (2,1,0)`. -/
theorem paeth_predictor_minimizes_witness :
    (2 : Nat) < 256 ∧ (1 : Nat) < 256 ∧ (0 : Nat) < 256 ∧ PaethSpec 2 1 0 :=
  ⟨by decide, by decide, by decide,
    paeth_predictor_minimizes 2 1 0 (by decide) (by decide) (by decide)⟩

/-- C10: the big-endian 16-bit sample packing helpers are mutually inverse:
`u8_to_u16_array (u16_to_u8_array v) = v` for every list `v` of `u16`
values, and `u16_to_u8_array (u8_to_u16_array bs) = bs` for every byte
list `bs` of even length. -/
theorem u16_u8_array_roundtrip :
    (∀ v : List Nat, (∀ x ∈ v, x < 65536) →
      u8_to_u16_array (u16_to_u8_array v) = v)
    ∧ (∀ bs : List Nat, (∀ x ∈ bs, x < 256) → bs.length % 2 = 0 →
      u16_to_u8_array (u8_to_u16_array bs) = bs) :=
  ⟨u8_to_u16_of_u16_to_u8, u16_to_u8_of_u8_to_u16⟩

/-- Witness for C10 at the concrete inputs `[300]` and `[1, 2]`. -/
theorem u16_u8_array_roundtrip_witness :
    u8_to_u16_array (u16_to_u8_array [300]) = [300]
    ∧ u16_to_u8_array (u8_to_u16_array [1, 2]) = [1, 2] :=
  ⟨u16_u8_array_roundtrip.1 [300] (by decide),
   u16_u8_array_roundtrip.2 [1, 2] (by decide) (by decide)⟩

/-! ## Scanline filters (src/filter.rs lines 24-161)

`apply_filter` (the decode-direction addition) and `reverse_filter` (the
encode-direction subtraction) mutate a flat multi-row buffer in place,
row by row; the in-place buffer is modelled by threading the list through
folds over the row indices and the byte indices of each row.  Reads of
`data[..]`/`row[..]` become `getD` on the current accumulated list, exactly
as the Rust code reads the partially updated buffer.  `wadd`/`wsub` are
`u8::wrapping_add`/`u8::wrapping_sub` on byte values. -/

def wadd (a b : Nat) : Nat := (a + b) % 256

def wsub (a b : Nat) : Nat := (a + 256 - b % 256) % 256

def filterRowApply (ft : Nat) (d : List Nat) (y bpr bpp : Nat) : List Nat :=
  match ft with
  | 0 => d
  | 1 => (List.range' bpp (bpr - bpp)).foldl
      (fun d x => d.set (y * bpr + x)
        (wadd (d.getD (y * bpr + x) 0) (d.getD (y * bpr + x - bpp) 0))) d
  | 2 =>
      if y > 0 then
        (List.range bpr).foldl
          (fun d x => d.set (y * bpr + x)
            (wadd (d.getD (y * bpr + x) 0) (d.getD ((y - 1) * bpr + x) 0))) d
      else d
  | 3 => (List.range bpr).foldl (fun d x =>
      let left := if x ≥ bpp then d.getD (y * bpr + x - bpp) 0 else 0
      let up := if y > 0 then d.getD ((y - 1) * bpr + x) 0 else 0
      d.set (y * bpr + x) (wadd (d.getD (y * bpr + x) 0) ((left + up) / 2))) d
  | 4 => (List.range bpr).foldl (fun d x =>
      let left := if x ≥ bpp then d.getD (y * bpr + x - bpp) 0 else 0
      let up := if y > 0 then d.getD ((y - 1) * bpr + x) 0 else 0
      let up_left := if y > 0 ∧ x ≥ bpp then d.getD ((y - 1) * bpr + x - bpp) 0 else 0
      d.set (y * bpr + x) (wadd (d.getD (y * bpr + x) 0) (paeth_predictor left up up_left))) d
  | _ => d

/-- Shallow embedding of `apply_filter` (src/filter.rs lines 24-80), the
decode-direction pass that adds predictors in place, top row first.
The `row_end > data.len()` break is the `if` guard: once it holds for some
`y` it holds for every later `y`, so skipping equals breaking. -/
def apply_filter (ft : Nat) (data : List Nat) (width bpp : Nat) : List Nat :=
  let bpr := width * bpp
  (List.range (data.length / bpr)).foldl
    (fun d y => if (y + 1) * bpr > d.length then d else filterRowApply ft d y bpr bpp) data

def filterRowReverse (ft : Nat) (d : List Nat) (y bpr bpp : Nat) : List Nat :=
  match ft with
  | 0 => d
  | 1 => (List.range' bpp (bpr - bpp)).foldl
      (fun d x => d.set (y * bpr + x)
        (wsub (d.getD (y * bpr + x) 0) (d.getD (y * bpr + x - bpp) 0))) d
  | 2 =>
      if y > 0 then
        (List.range bpr).foldl
          (fun d x => d.set (y * bpr + x)
            (wsub (d.getD (y * bpr + x) 0) (d.getD ((y - 1) * bpr + x) 0))) d
      else d
  | 3 => (List.range bpr).foldl (fun d x =>
      let left := if x ≥ bpp then d.getD (y * bpr + x - bpp) 0 else 0
      let up := if y > 0 then d.getD ((y - 1) * bpr + x) 0 else 0
      d.set (y * bpr + x) (wsub (d.getD (y * bpr + x) 0) ((left + up) / 2))) d
  | 4 => (List.range bpr).foldl (fun d x =>
      let left := if x ≥ bpp then d.getD (y * bpr + x - bpp) 0 else 0
      let up := if y > 0 then d.getD ((y - 1) * bpr + x) 0 else 0
      let up_left := if y > 0 ∧ x ≥ bpp then d.getD ((y - 1) * bpr + x - bpp) 0 else 0
      d.set (y * bpr + x) (wsub (d.getD (y * bpr + x) 0) (paeth_predictor left up up_left))) d
  | _ => d

/-- Shallow embedding of `reverse_filter` (src/filter.rs lines 83-139), the
encode-direction pass that subtracts predictors in place, top row first. -/
def reverse_filter (ft : Nat) (data : List Nat) (width bpp : Nat) : List Nat :=
  let bpr := width * bpp
  (List.range (data.length / bpr)).foldl
    (fun d y => if (y + 1) * bpr > d.length then d else filterRowReverse ft d y bpr bpp) data

/-- Shallow embedding of `choose_best_filter` (src/filter.rs lines 142-161):
for each filter type it applies the (adding) filter to a copy and compares
the *length* of the result against the running best, starting from
`best_size = data.len()`. -/
def choose_best_filter (data : List Nat) (width bpp : Nat) : Nat :=
  (([0, 1, 2, 3, 4] : List Nat).foldl
    (fun best ft =>
      let test := apply_filter ft data width bpp
      if test.length < best.2 then (ft, test.length) else best)
    (0, data.length)).1

/-- Modelled from the spec: the forward (encode-direction, subtracting)
filter of section 4.3, computed against the original row bytes and the
unfiltered prior row `prior` (all-zero for the first row), with `bpp`
bytes per pixel. -/
def spec_filter_byte (ft : Nat) (row prior : List Nat) (bpp x : Nat) : Nat :=
  let left := if x ≥ bpp then row.getD (x - bpp) 0 else 0
  let up := prior.getD x 0
  let up_left := if x ≥ bpp then prior.getD (x - bpp) 0 else 0
  match ft with
  | 0 => row.getD x 0
  | 1 => wsub (row.getD x 0) left
  | 2 => wsub (row.getD x 0) up
  | 3 => wsub (row.getD x 0) ((left + up) / 2)
  | 4 => wsub (row.getD x 0) (paeth_predictor left up up_left)
  | _ => row.getD x 0

/-- Modelled from the spec: all bytes of a forward-filtered candidate row. -/
def spec_forward_filter (ft : Nat) (row prior : List Nat) (bpp : Nat) : List Nat :=
  (List.range row.length).map (spec_filter_byte ft row prior bpp)

/-- Modelled from the spec: the minimum-absolute-deviation score of one
byte, the absolute value of the byte read as a signed (two's-complement)
deviation: `b` for `b < 128`, `256 - b` otherwise. -/
def spec_abs_signed (b : Nat) : Nat :=
  if b % 256 < 128 then b % 256 else 256 - b % 256

/-- Modelled from the spec: score of a candidate row, the sum of the
absolute signed deviations of its bytes. -/
def spec_filter_score (cand : List Nat) : Nat := (cand.map spec_abs_signed).sum

/-- Modelled from the spec: per-row filter selection, picking the first
filter type in 0..4 whose forward-filtered candidate has minimal score. -/
def spec_choose_best_filter (row prior : List Nat) (bpp : Nat) : Nat :=
  (([0, 1, 2, 3, 4] : List Nat).foldl
    (fun best ft =>
      let s := spec_filter_score (spec_forward_filter ft row prior bpp)
      if s < best.2 then (ft, s) else best)
    (0, spec_filter_score (spec_forward_filter 0 row prior bpp))).1

/-- C2 (code bug): composing the subtracting pass with the adding pass is
NOT the identity.  For filter type 1 (Sub), the first row `[1, 0, 0]`
(prior row all zero) with `width = 3`, `bpp = 1` gives
`reverse_filter 1 (apply_filter 1 [1,0,0] 3 1) 3 1 = [1, 0, 1] ≠ [1, 0, 0]`:
`reverse_filter` subtracts neighbours that it has already modified in
place instead of the original ones. -/
theorem reverse_of_apply_not_identity :
    apply_filter 1 [1, 0, 0] 3 1 = [1, 1, 1]
    ∧ reverse_filter 1 (apply_filter 1 [1, 0, 0] 3 1) 3 1 = [1, 0, 1]
    ∧ ([1, 0, 1] : List Nat) ≠ [1, 0, 0] := by decide

/-- C8 (code bug): `choose_best_filter` compares the *length* of each
candidate against `data.len()`, which never differs, so it returns filter
type 0 for every input; the specification's minimum-absolute-deviation
selection picks Sub (type 1) for the row `[255, 255]` with zero prior row
and `bpp = 1`. -/
theorem choose_best_filter_always_none :
    choose_best_filter [255, 255] 2 1 = 0
    ∧ spec_choose_best_filter [255, 255] [0, 0] 1 = 1 := by decide

/-! ## Adam7 interlace geometry (src/constants.rs lines 43-85,
src/interlace.rs lines 100-263)

`get_interlace_pass_size` iterates over the fixed `[u8; 8]` offset rows of
`INTERLACE_PASSES` / `INTERLACE_Y_PASSES` and accumulates
`(dim + (7 - entry)) / 8` for every entry that is *non-zero*. -/

def INTERLACE_PASSES : List (List Nat) :=
  [[0, 0, 0, 0, 0, 0, 0, 0],
   [4, 0, 0, 0, 0, 0, 0, 0],
   [0, 4, 0, 0, 0, 0, 0, 0],
   [2, 6, 0, 0, 0, 0, 0, 0],
   [0, 2, 4, 6, 0, 0, 0, 0],
   [1, 3, 5, 7, 0, 0, 0, 0],
   [0, 1, 2, 3, 4, 5, 6, 7]]

def INTERLACE_Y_PASSES : List (List Nat) :=
  [[0, 0, 0, 0, 0, 0, 0, 0],
   [0, 0, 0, 0, 0, 0, 0, 0],
   [4, 0, 0, 0, 0, 0, 0, 0],
   [0, 4, 0, 0, 0, 0, 0, 0],
   [2, 6, 0, 0, 0, 0, 0, 0],
   [0, 2, 4, 6, 0, 0, 0, 0],
   [1, 3, 5, 7, 0, 0, 0, 0]]

/-- Shallow embedding of `get_interlace_pass_size`
(src/constants.rs lines 64-85). -/
def get_interlace_pass_size (width height pass : Nat) : Nat × Nat :=
  if pass ≥ 7 then (0, 0)
  else
    let x_pass := INTERLACE_PASSES.getD pass []
    let y_pass := INTERLACE_Y_PASSES.getD pass []
    (List.range 8).foldl
      (fun wh i =>
        let w := if x_pass.getD i 0 ≠ 0 then wh.1 + (width + (7 - x_pass.getD i 0)) / 8 else wh.1
        let h := if y_pass.getD i 0 ≠ 0 then wh.2 + (height + (7 - y_pass.getD i 0)) / 8 else wh.2
        (w, h))
      (0, 0)

/-- Shallow embedding of `get_interlace_offsets`
(src/interlace.rs lines 126-137): `(x_offset, y_offset, x_step, y_step)`. -/
def get_interlace_offsets (pass : Nat) : Nat × Nat × Nat × Nat :=
  match pass with
  | 0 => (0, 0, 8, 8)
  | 1 => (4, 0, 8, 8)
  | 2 => (0, 4, 4, 8)
  | 3 => (2, 0, 4, 4)
  | 4 => (0, 2, 2, 4)
  | 5 => (1, 0, 2, 2)
  | 6 => (0, 1, 1, 2)
  | _ => (0, 0, 1, 1)

/-- The in-bounds target coordinates `(x_offset + x*x_step, y_offset + y*y_step)`
written by one pass of `deinterlace_passes` (src/interlace.rs lines 165-203):
`x` ranges over `0..pass_width` and `y` over `0..pass_height` as computed by
`get_interlace_pass_size`, a pass with a zero dimension is skipped, and a
coordinate is written only when it lies inside the full raster. -/
def deinterlace_target_coords (width height pass : Nat) : List (Nat × Nat) :=
  let wh := get_interlace_pass_size width height pass
  if wh.1 = 0 ∨ wh.2 = 0 then []
  else
    match get_interlace_offsets pass with
    | (x_offset, y_offset, x_step, y_step) =>
      (List.range wh.2).flatMap (fun y =>
        (List.range wh.1).filterMap (fun x =>
          let target_x := x_offset + x * x_step
          let target_y := y_offset + y * y_step
          if target_x < width ∧ target_y < height then some (target_x, target_y)
          else none))

/-- How many of the 7 passes produce the coordinate `p` as a target. -/
def deinterlace_cover_count (width height : Nat) (p : Nat × Nat) : Nat :=
  ((List.range 7).map (fun pass => (deinterlace_target_coords width height pass).count p)).sum

/-- Modelled from the spec: the Adam7 per-pass dimensions of section 4.4,
`pass_width = ceil((width − x_offset)/x_step)` when `width > x_offset` and
`0` otherwise, and analogously for the height. -/
def spec_pass_size (width height pass : Nat) : Nat × Nat :=
  match get_interlace_offsets pass with
  | (x_offset, y_offset, x_step, y_step) =>
    ((if width > x_offset then (width - x_offset + x_step - 1) / x_step else 0),
     (if height > y_offset then (height - y_offset + y_step - 1) / y_step else 0))

/-- C3 (code bug): the union of the 7 passes' target coordinates does not
cover the 8×8 grid: pixel `(0,0)` belongs only to pass 1, whose dimensions
`get_interlace_pass_size 8 8 0` compute to `(0,0)` (zero entries of the
offset tables are skipped), so `(0,0)` is produced by no pass at all
instead of exactly once. -/
theorem adam7_cover_gap_8x8 :
    deinterlace_cover_count 8 8 (0, 0) = 0
    ∧ get_interlace_pass_size 8 8 0 = (0, 0) := by decide

/-- C4 (code bug): the computed pass dimensions disagree with the spec
formula: pass 1 (index 0) of an 8×8 image must be 1×1, but
`get_interlace_pass_size` returns `(0,0)` because the all-zero first row of
`INTERLACE_PASSES` contributes nothing. -/
theorem pass_size_disagrees_with_spec :
    get_interlace_pass_size 8 8 0 = (0, 0)
    ∧ spec_pass_size 8 8 0 = (1, 1) := by decide

/-! ## Palette lookup (src/bitmapper.rs lines 167-191,
src/lib.rs lines 676-691) -/

/-- Shallow embedding of `Bitmapper::map_palette_pixel`
(src/bitmapper.rs lines 167-191): `index` is the first byte of the pixel
data, `palette` the flat RGB byte vector, `trans_color` the optional
per-index alpha vector (`u16` entries, truncated to `u8` on use); the
result is the RGBA quadruple written to `output[0..4]`. -/
def map_palette_pixel (palette : Option (List Nat)) (trans_color : Option (List Nat))
    (index : Nat) : Except String (List Nat) :=
  match palette with
  | none => .error "No palette available"
  | some pal =>
    if index * 3 + 2 < pal.length then
      let alpha :=
        match trans_color with
        | some t => if index < t.length then t.getD index 0 % 256 else 0xff
        | none => 0xff
      .ok [pal.getD (index * 3) 0, pal.getD (index * 3 + 1) 0, pal.getD (index * 3 + 2) 0, alpha]
    else
      .error "Palette index out of bounds"

/-- Shallow embedding of the `(ColorType::Indexed, BitDepth::Eight)` arm of
`convert_to_rgba` (src/lib.rs lines 676-691): every palette index in range
is expanded to its RGB triple plus alpha 255, and every out-of-range index
is silently replaced by the default opaque black `[0, 0, 0, 255]`. -/
def convert_to_rgba_indexed8 (data palette : List Nat) : List Nat :=
  data.flatMap (fun index =>
    if index * 3 + 2 < palette.length then
      [palette.getD (index * 3) 0, palette.getD (index * 3 + 1) 0,
       palette.getD (index * 3 + 2) 0, 255]
    else [0, 0, 0, 255])

/-- C9 counterexample: with a one-entry palette `[9, 9, 9]`, decoding the
pixel index `1` (equal to the palette length) through `convert_to_rgba`
substitutes the default opaque black pixel instead of failing with a
palette-index error, contradicting the claim that no default color is ever
substituted. -/
theorem convert_to_rgba_substitutes_black :
    convert_to_rgba_indexed8 [1] [9, 9, 9] = [0, 0, 0, 255]
    ∧ convert_to_rgba_indexed8 [0] [9, 9, 9] = [9, 9, 9, 255] := by decide

/-- C9 (amended): `Bitmapper::map_palette_pixel` fails with the palette
index error for every index whose lookup would exceed the palette bytes
(in particular an index equal to the number of palette entries), never
clamping or substituting; the `convert_to_rgba` path in lib.rs is the one
that substitutes opaque black instead. -/
theorem map_palette_pixel_out_of_range_errors
    (pal : List Nat) (trans : Option (List Nat)) (index : Nat)
    (h : ¬ index * 3 + 2 < pal.length) :
    map_palette_pixel (some pal) trans index = .error "Palette index out of bounds" := by
  simp only [map_palette_pixel, if_neg h]

/-- Witness for the amended C9 at palette `[9, 9, 9]` and index `1`. -/
theorem map_palette_pixel_out_of_range_errors_witness :
    ¬ (1 * 3 + 2 < ([9, 9, 9] : List Nat).length)
    ∧ map_palette_pixel (some [9, 9, 9]) none 1 = .error "Palette index out of bounds" :=
  ⟨by decide, map_palette_pixel_out_of_range_errors [9, 9, 9] none 1 (by decide)⟩


/-! ## CRC-32 (src/lib.rs lines 46-99)

`crc32` is the table-driven CRC with initial register `0xFFFFFFFF` and
final XOR with `0xFFFFFFFF`; `CRC_TABLE` is the 256-entry table constant
of src/lib.rs.  `(crc ^ byte) & 0xff` is modelled as `% 256` and
`crc >> 8` as `>>> 8`. -/

def CRC_TABLE : List Nat := [
  0x00000000, 0x77073096, 0xee0e612c, 0x990951ba, 0x076dc419, 0x706af48f, 0xe963a535, 0x9e6495a3,
  0x0edb8832, 0x79dcb8a4, 0xe0d5e91e, 0x97d2d988, 0x09b64c2b, 0x7eb17cbd, 0xe7b82d07, 0x90bf1d91,
  0x1db71064, 0x6ab020f2, 0xf3b97148, 0x84be41de, 0x1adad47d, 0x6ddde4eb, 0xf4d4b551, 0x83d385c7,
  0x136c9856, 0x646ba8c0, 0xfd62f97a, 0x8a65c9ec, 0x14015c4f, 0x63066cd9, 0xfa0f3d63, 0x8d080df5,
  0x3b6e20c8, 0x4c69105e, 0xd56041e4, 0xa2677172, 0x3c03e4d1, 0x4b04d447, 0xd20d85fd, 0xa50ab56b,
  0x35b5a8fa, 0x42b2986c, 0xdbbbc9d6, 0xacbcf940, 0x32d86ce3, 0x45df5c75, 0xdcd60dcf, 0xabd13d59,
  0x26d930ac, 0x51de003a, 0xc8d75180, 0xbfd06116, 0x21b4f4b5, 0x56b3c423, 0xcfba9599, 0xb8bda50f,
  0x2802b89e, 0x5f058808, 0xc60cd9b2, 0xb10be924, 0x2f6f7c87, 0x58684c11, 0xc1611dab, 0xb6662d3d,
  0x76dc4190, 0x01db7106, 0x98d220bc, 0xefd5102a, 0x71b18589, 0x06b6b51f, 0x9fbfe4a5, 0xe8b8d433,
  0x7807c9a2, 0x0f00f934, 0x9609a88e, 0xe10e9818, 0x7f6a0dbb, 0x086d3d2d, 0x91646c97, 0xe6635c01,
  0x6b6b51f4, 0x1c6c6162, 0x856530d8, 0xf262004e, 0x6c0695ed, 0x1b01a57b, 0x8208f4c1, 0xf50fc457,
  0x65b0d9c6, 0x12b7e950, 0x8bbeb8ea, 0xfcb9887c, 0x62dd1ddf, 0x15da2d49, 0x8cd37cf3, 0xfbd44c65,
  0x4db26158, 0x3ab551ce, 0xa3bc0074, 0xd4bb30e2, 0x4adfa541, 0x3dd895d7, 0xa4d1c46d, 0xd3d6f4fb,
  0x4369e96a, 0x346ed9fc, 0xad678846, 0xda60b8d0, 0x44042d73, 0x33031de5, 0xaa0a4c5f, 0xdd0d7cc9,
  0x5005713c, 0x270241aa, 0xbe0b1010, 0xc90c2086, 0x5768b525, 0x206f85b3, 0xb966d409, 0xce61e49f,
  0x5edef90e, 0x29d9c998, 0xb0d09822, 0xc7d7a8b4, 0x59b33d17, 0x2eb40d81, 0xb7bd5c3b, 0xc0ba6cad,
  0xedb88320, 0x9abfb3b6, 0x03b6e20c, 0x74b1d29a, 0xead54739, 0x9dd277af, 0x04db2615, 0x73dc1683,
  0xe3630b12, 0x94643b84, 0x0d6d6a3e, 0x7a6a5aa8, 0xe40ecf0b, 0x9309ff9d, 0x0a00ae27, 0x7d079eb1,
  0xf00f9344, 0x8708a3d2, 0x1e01f268, 0x6906c2fe, 0xf762575d, 0x806567cb, 0x196c3671, 0x6e6b06e7,
  0xfed41b76, 0x89d32be0, 0x10da7a5a, 0x67dd4acc, 0xf9b9df6f, 0x8ebeeff9, 0x17b7be43, 0x60b08ed5,
  0xd6d6a3e8, 0xa1d1937e, 0x38d8c2c4, 0x4fdff252, 0xd1bb67f1, 0xa6bc5767, 0x3fb506dd, 0x48b2364b,
  0xd80d2bda, 0xaf0a1b4c, 0x36034af6, 0x41047a60, 0xdf60efc3, 0xa867df55, 0x316e8eef, 0x4669be79,
  0xcb61b38c, 0xbc66831a, 0x256fd2a0, 0x5268e236, 0xcc0c7795, 0xbb0b4703, 0x220216b9, 0x5505262f,
  0xc5ba3bbe, 0xb2bd0b28, 0x2bb45a92, 0x5cb36a04, 0xc2d7ffa7, 0xb5d0cf31, 0x2cd99e8b, 0x5bdeae1d,
  0x9b64c2b0, 0xec63f226, 0x756aa39c, 0x026d930a, 0x9c0906a9, 0xeb0e363f, 0x72076785, 0x05005713,
  0x95bf4a82, 0xe2b87a14, 0x7bb12bae, 0x0cb61b38, 0x92d28e9b, 0xe5d5be0d, 0x7cdcefb7, 0x0bdbdf21,
  0x86d3d2d4, 0xf1d4e242, 0x68ddb3f8, 0x1fda836e, 0x81be16cd, 0xf6b9265b, 0x6fb077e1, 0x18b74777,
  0x88085ae6, 0xff0f6a70, 0x66063bca, 0x11010b5c, 0x8f659eff, 0xf862ae69, 0x616bffd3, 0x166ccf45,
  0xa00ae278, 0xd70dd2ee, 0x4e048354, 0x3903b3c2, 0xa7672661, 0xd06016f7, 0x4969474d, 0x3e6e77db,
  0xaed16a4a, 0xd9d65adc, 0x40df0b66, 0x37d83bf0, 0xa9bcae53, 0xdebb9ec5, 0x47b2cf7f, 0x30b5ffe9,
  0xbdbdf21c, 0xcabac28a, 0x53b39330, 0x24b4a3a6, 0xbad03605, 0xcdd70693, 0x54de5729, 0x23d967bf,
  0xb3667a2e, 0xc4614ab8, 0x5d681b02, 0x2a6f2b94, 0xb40bbe37, 0xc30c8ea1, 0x5a05df1b, 0x2d02ef8d]

def crcTableAt (i : Nat) : Nat := CRC_TABLE.getD i 0

/-- One iteration of the `crc32` loop (src/lib.rs line 96). -/
def crc32_step (crc byte : Nat) : Nat :=
  crcTableAt ((crc ^^^ byte) % 256) ^^^ (crc >>> 8)

/-- Shallow embedding of `crc32` (src/lib.rs lines 93-99). -/
def crc32 (data : List Nat) : Nat :=
  data.foldl crc32_step 0xffffffff ^^^ 0xffffffff

set_option maxRecDepth 4000

theorem crc_table_length : CRC_TABLE.length = 256 := by decide

theorem crc_table_bounded : ∀ x ∈ CRC_TABLE, x < 2 ^ 32 := by decide

/-- The top bytes of the 256 table entries are pairwise distinct; this is
what makes one `crc32_step` iteration invertible. -/
theorem crc_table_topbyte_nodup : (CRC_TABLE.map (fun x => x >>> 24)).Nodup := by decide

theorem crcTableAt_lt (i : Nat) : crcTableAt i < 2 ^ 32 := by
  by_cases h : i < CRC_TABLE.length
  · rw [crcTableAt, List.getD_eq_getElem _ _ h]
    exact crc_table_bounded _ (List.getElem_mem h)
  · rw [crcTableAt, List.getD_eq_default _ _ (Nat.le_of_not_lt h)]
    decide

theorem crcTableAt_topbyte_inj {i j : Nat} (hi : i < 256) (hj : j < 256)
    (h : crcTableAt i >>> 24 = crcTableAt j >>> 24) : i = j := by
  have hi2 : i < CRC_TABLE.length := by rw [crc_table_length]; exact hi
  have hj2 : j < CRC_TABLE.length := by rw [crc_table_length]; exact hj
  rw [crcTableAt, crcTableAt, List.getD_eq_getElem _ _ hi2,
    List.getD_eq_getElem _ _ hj2] at h
  have hmi : i < (CRC_TABLE.map (fun x => x >>> 24)).length := by simpa using hi2
  have hmj : j < (CRC_TABLE.map (fun x => x >>> 24)).length := by simpa using hj2
  have hme : (CRC_TABLE.map (fun x => x >>> 24)).get ⟨i, hmi⟩ =
      (CRC_TABLE.map (fun x => x >>> 24)).get ⟨j, hmj⟩ := by
    simp only [List.get_eq_getElem, List.getElem_map]
    exact h
  have h5 := (List.Nodup.get_inj_iff crc_table_topbyte_nodup).mp hme
  exact congrArg Fin.val h5

theorem crcTableAt_inj {i j : Nat} (hi : i < 256) (hj : j < 256)
    (h : crcTableAt i = crcTableAt j) : i = j :=
  crcTableAt_topbyte_inj hi hj (by rw [h])

theorem crc32_step_lt {crc : Nat} (byte : Nat) (h : crc < 2 ^ 32) :
    crc32_step crc byte < 2 ^ 32 := by
  apply Nat.xor_lt_two_pow (crcTableAt_lt _)
  rw [Nat.shiftRight_eq_div_pow]
  omega

/-- For a fixed input byte, one `crc32_step` iteration is injective in the
32-bit register: the table index can be read back off the top output byte,
and register and index determine each other. -/
theorem crc32_step_reg_inj (b : Nat) {r1 r2 : Nat} (h1 : r1 < 2 ^ 32) (h2 : r2 < 2 ^ 32)
    (he : crc32_step r1 b = crc32_step r2 b) : r1 = r2 := by
  have hi1 : (r1 ^^^ b) % 256 < 256 := Nat.mod_lt _ (by decide)
  have hi2 : (r2 ^^^ b) % 256 < 256 := Nat.mod_lt _ (by decide)
  have hr1 : ∀ k, (r1 >>> 8).testBit (24 + k) = false := by
    intro k
    rw [Nat.testBit_shiftRight]
    exact Nat.testBit_eq_false_of_lt
      (lt_of_lt_of_le h1 (Nat.pow_le_pow_right (by decide) (by omega)))
  have hr2 : ∀ k, (r2 >>> 8).testBit (24 + k) = false := by
    intro k
    rw [Nat.testBit_shiftRight]
    exact Nat.testBit_eq_false_of_lt
      (lt_of_lt_of_le h2 (Nat.pow_le_pow_right (by decide) (by omega)))
  have htop : crcTableAt ((r1 ^^^ b) % 256) >>> 24 = crcTableAt ((r2 ^^^ b) % 256) >>> 24 := by
    apply Nat.eq_of_testBit_eq
    intro k
    have hbit := congrArg (fun x => Nat.testBit x (24 + k)) he
    simp only [crc32_step, Nat.testBit_xor, hr1 k, hr2 k, Bool.xor_false] at hbit
    rw [Nat.testBit_shiftRight, Nat.testBit_shiftRight]
    exact hbit
  have hii : (r1 ^^^ b) % 256 = (r2 ^^^ b) % 256 := crcTableAt_topbyte_inj hi1 hi2 htop
  have hsh : r1 >>> 8 = r2 >>> 8 := by
    have he2 : crcTableAt ((r1 ^^^ b) % 256) ^^^ (r1 >>> 8) =
        crcTableAt ((r1 ^^^ b) % 256) ^^^ (r2 >>> 8) := by
      have h3 := he
      rw [crc32_step, crc32_step, ← hii] at h3
      exact h3
    have h4 := congrArg (fun x => crcTableAt ((r1 ^^^ b) % 256) ^^^ x) he2
    simpa [← Nat.xor_assoc, Nat.xor_self, Nat.zero_xor] using h4
  apply Nat.eq_of_testBit_eq
  intro k
  by_cases hk : k < 8
  · have hdk : decide (k < 8) = true := decide_eq_true hk
    have hbit := congrArg (fun x => Nat.testBit x k) hii
    rw [show (256 : Nat) = 2 ^ 8 from rfl] at hbit
    simp only [Nat.testBit_mod_two_pow, hdk, Bool.true_and, Nat.testBit_xor] at hbit
    cases hb : b.testBit k <;> simp [hb] at hbit <;> exact hbit
  · have hbit := congrArg (fun x => Nat.testBit x (k - 8)) hsh
    simp only [Nat.testBit_shiftRight] at hbit
    have hk8 : 8 + (k - 8) = k := by omega
    rw [hk8] at hbit
    exact hbit

/-- Two input bytes that differ modulo 256 send the same register to
different `crc32_step` results, because all 256 table entries differ. -/
theorem crc32_step_byte_ne (r b1 b2 : Nat) (h : b1 % 256 ≠ b2 % 256) :
    crc32_step r b1 ≠ crc32_step r b2 := by
  intro he
  have hne : (r ^^^ b1) % 256 ≠ (r ^^^ b2) % 256 := by
    intro hmod
    apply h
    apply Nat.eq_of_testBit_eq
    intro k
    rw [show (256 : Nat) = 2 ^ 8 from rfl] at hmod ⊢
    by_cases hk : k < 8
    · have hdk : decide (k < 8) = true := decide_eq_true hk
      have hbit := congrArg (fun x => Nat.testBit x k) hmod
      simp only [Nat.testBit_mod_two_pow, hdk, Bool.true_and, Nat.testBit_xor] at hbit
      simp only [Nat.testBit_mod_two_pow, hdk, Bool.true_and]
      cases hrk : r.testBit k <;> simp [hrk] at hbit <;> exact hbit
    · have hdk : decide (k < 8) = false := decide_eq_false hk
      simp only [Nat.testBit_mod_two_pow, hdk, Bool.false_and]
  have hteq : crcTableAt ((r ^^^ b1) % 256) = crcTableAt ((r ^^^ b2) % 256) := by
    simp only [crc32_step] at he
    have h3 : crcTableAt ((r ^^^ b1) % 256) ^^^ (r >>> 8) ^^^ (r >>> 8) =
        crcTableAt ((r ^^^ b2) % 256) ^^^ (r >>> 8) ^^^ (r >>> 8) := by rw [he]
    simpa [Nat.xor_cancel_right] using h3
  exact hne (crcTableAt_inj (Nat.mod_lt _ (by decide)) (Nat.mod_lt _ (by decide)) hteq)

theorem crc32_foldl_lt (l : List Nat) (r : Nat) (h : r < 2 ^ 32) :
    l.foldl crc32_step r < 2 ^ 32 := by
  induction l generalizing r with
  | nil => exact h
  | cons b t ih => exact ih _ (crc32_step_lt b h)

/-- Registers that differ stay different through any byte suffix. -/
theorem crc32_foldl_inj (l : List Nat) {r1 r2 : Nat} (h1 : r1 < 2 ^ 32) (h2 : r2 < 2 ^ 32)
    (hne : r1 ≠ r2) : l.foldl crc32_step r1 ≠ l.foldl crc32_step r2 := by
  induction l generalizing r1 r2 with
  | nil => exact hne
  | cons b t ih =>
    simp only [List.foldl_cons]
    exact ih (crc32_step_lt b h1) (crc32_step_lt b h2)
      (fun he => hne (crc32_step_reg_inj b h1 h2 he))

/-- C6: flipping a single bit of one byte anywhere in the bytes covered by
a chunk CRC (the type field concatenated with the data field) always
changes `crc32`; hence the recomputed CRC never equals the stored one and
the chunk parser (png_chunks.rs lines 543-546) rejects the chunk with its
CRC-mismatch error.  The byte is written `pre ++ b :: suf`, the flip as
XOR with `2 ^ k`, `k < 8`. -/
theorem crc32_detects_single_bit_flip (pre suf : List Nat) (b k : Nat) (hk : k < 8) :
    crc32 (pre ++ (b ^^^ 2 ^ k) :: suf) ≠ crc32 (pre ++ b :: suf) := by
  intro he
  have he1 : (pre ++ (b ^^^ 2 ^ k) :: suf).foldl crc32_step 0xffffffff =
      (pre ++ b :: suf).foldl crc32_step 0xffffffff := by
    have h2 := congrArg (fun x => x ^^^ 0xffffffff) he
    simpa [crc32, Nat.xor_cancel_right] using h2
  rw [List.foldl_append, List.foldl_append] at he1
  simp only [List.foldl_cons] at he1
  have hr : pre.foldl crc32_step 0xffffffff < 2 ^ 32 :=
    crc32_foldl_lt pre _ (by decide)
  have hbne : (b ^^^ 2 ^ k) % 256 ≠ b % 256 := by
    intro hmod
    have hdk : decide (k < 8) = true := decide_eq_true hk
    have hbit := congrArg (fun x => Nat.testBit x k) hmod
    rw [show (256 : Nat) = 2 ^ 8 from rfl] at hbit
    simp only [Nat.testBit_mod_two_pow, hdk, Bool.true_and, Nat.testBit_xor,
      Nat.testBit_two_pow_self] at hbit
    cases hb : b.testBit k <;> simp [hb] at hbit
  exact crc32_foldl_inj suf
    (crc32_step_lt _ hr) (crc32_step_lt _ hr)
    (crc32_step_byte_ne _ _ _ hbne) he1

/-- Witness for C6: flipping bit 0 of the single byte `0`. -/
theorem crc32_detects_single_bit_flip_witness :
    crc32 ([] ++ (0 ^^^ 2 ^ 0) :: []) ≠ crc32 ([] ++ 0 :: []) :=
  crc32_detects_single_bit_flip [] [] 0 0 (by decide)

/-! ## Chunk stream parsing (src/png_chunks.rs)

`PNGChunkParser::parse` checks the 8-byte signature, then repeatedly reads
`length`, `type`, `data`, `crc`, verifies the CRC over type ++ data and
hands the chunk to `process_chunk`; it performs no chunk-order checks.
`ChunkType` round-trips through `from_u32`/`to_u32` without loss, so the
chunk type is modelled as its raw `u32` code.  The `crc32` of the missing
`crate::crc` module is modelled by the identical table-driven `crc32` of
src/lib.rs, which by the spec (section 4.1) is the same standard CRC-32.
Text keywords and payloads are kept as raw byte lists (the source decodes
them as UTF-8 strings; that validation is not modelled and no claim
depends on it). -/

def PNG_SIGNATURE : List Nat := [0x89, 0x50, 0x4e, 0x47, 0x0d, 0x0a, 0x1a, 0x0a]

def TYPE_IHDR : Nat := 0x49484452
def TYPE_IEND : Nat := 0x49454e44
def TYPE_IDAT : Nat := 0x49444154
def TYPE_PLTE : Nat := 0x504c5445
def TYPE_tRNS : Nat := 0x74524e53
def TYPE_gAMA : Nat := 0x67414d41
def TYPE_cHRM : Nat := 0x6348524d
def TYPE_sRGB : Nat := 0x73524742
def TYPE_tEXt : Nat := 0x74455874
def TYPE_zTXt : Nat := 0x7a545874
def TYPE_iTXt : Nat := 0x69545874

def COLORTYPE_GRAYSCALE : Nat := 0
def COLORTYPE_COLOR : Nat := 2
def COLORTYPE_PALETTE_COLOR : Nat := 3

/-- `u32::from_be_bytes` on four bytes. -/
def be32 (a b c d : Nat) : Nat := ((a * 256 + b) * 256 + c) * 256 + d

/-- `u16::from_be_bytes` on two bytes. -/
def be16 (a b : Nat) : Nat := a * 256 + b

/-- `u32::to_be_bytes`. -/
def u32_to_be_bytes (v : Nat) : List Nat :=
  [v / 2 ^ 24 % 256, v / 2 ^ 16 % 256, v / 2 ^ 8 % 256, v % 256]

structure PNGChunk where
  length : Nat
  chunk_type : Nat
  data : List Nat
  crc : Nat
deriving DecidableEq

/-- `PNGChunk::calculate_crc`: CRC over the 4 big-endian type bytes
followed by the data. -/
def PNGChunk.calculate_crc (chunk_type : Nat) (data : List Nat) : Nat :=
  crc32 (u32_to_be_bytes chunk_type ++ data)

/-- `PNGChunk::verify_crc`. -/
def PNGChunk.verify_crc (c : PNGChunk) : Bool :=
  PNGChunk.calculate_crc c.chunk_type c.data == c.crc

/-- `PNGChunk::new`: length and CRC are computed from the data. -/
def PNGChunk.make (chunk_type : Nat) (data : List Nat) : PNGChunk :=
  ⟨data.length, chunk_type, data, PNGChunk.calculate_crc chunk_type data⟩

/-- `PNGChunk::to_bytes`. -/
def PNGChunk.to_bytes (c : PNGChunk) : List Nat :=
  u32_to_be_bytes c.length ++ u32_to_be_bytes c.chunk_type ++ c.data ++ u32_to_be_bytes c.crc

structure IHDRData where
  width : Nat
  height : Nat
  bit_depth : Nat
  color_type : Nat
  compression_method : Nat
  filter_method : Nat
  interlace_method : Nat
deriving DecidableEq

/-- `IHDRData::from_bytes` (src/png_chunks.rs lines 119-133). -/
def IHDRData.from_bytes (d : List Nat) : Except String IHDRData :=
  if d.length ≠ 13 then .error "IHDR data must be 13 bytes"
  else .ok
    { width := be32 (d.getD 0 0) (d.getD 1 0) (d.getD 2 0) (d.getD 3 0)
      height := be32 (d.getD 4 0) (d.getD 5 0) (d.getD 6 0) (d.getD 7 0)
      bit_depth := d.getD 8 0
      color_type := d.getD 9 0
      compression_method := d.getD 10 0
      filter_method := d.getD 11 0
      interlace_method := d.getD 12 0 }

def rgb_triples : List Nat → List (Nat × Nat × Nat)
  | r :: g :: b :: rest => (r, g, b) :: rgb_triples rest
  | _ => []

/-- `PLTEData::from_bytes`. -/
def PLTEData.from_bytes (d : List Nat) : Except String (List (Nat × Nat × Nat)) :=
  if d.length % 3 ≠ 0 then .error "PLTE data length must be multiple of 3"
  else .ok (rgb_triples d)

inductive TRNSData where
  | grayscale (value : Nat)
  | rgb (r g b : Nat)
  | palette (alpha : List Nat)
deriving DecidableEq

/-- `TRNSData::from_bytes` (src/png_chunks.rs lines 188-215). -/
def TRNSData.from_bytes (d : List Nat) (color_type : Nat) : Except String TRNSData :=
  if color_type = COLORTYPE_GRAYSCALE then
    if d.length ≠ 2 then .error "Grayscale tRNS must be 2 bytes"
    else .ok (.grayscale (be16 (d.getD 0 0) (d.getD 1 0)))
  else if color_type = COLORTYPE_COLOR then
    if d.length ≠ 6 then .error "RGB tRNS must be 6 bytes"
    else .ok (.rgb (be16 (d.getD 0 0) (d.getD 1 0)) (be16 (d.getD 2 0) (d.getD 3 0))
      (be16 (d.getD 4 0) (d.getD 5 0)))
  else if color_type = COLORTYPE_PALETTE_COLOR then .ok (.palette d)
  else .error "Invalid color type for tRNS"

/-- `GAMAData::from_bytes`. -/
def GAMAData.from_bytes (d : List Nat) : Except String Nat :=
  if d.length ≠ 4 then .error "gAMA data must be 4 bytes"
  else .ok (be32 (d.getD 0 0) (d.getD 1 0) (d.getD 2 0) (d.getD 3 0))

/-- `CHRMData::from_bytes`: eight big-endian `u32` fields. -/
def CHRMData.from_bytes (d : List Nat) : Except String (List Nat) :=
  if d.length ≠ 32 then .error "cHRM data must be 32 bytes"
  else .ok ((List.range 8).map (fun i =>
    be32 (d.getD (4 * i) 0) (d.getD (4 * i + 1) 0) (d.getD (4 * i + 2) 0) (d.getD (4 * i + 3) 0)))

/-- `SRGBData::from_bytes`. -/
def SRGBData.from_bytes (d : List Nat) : Except String Nat :=
  if d.length ≠ 1 then .error "sRGB data must be 1 byte"
  else .ok (d.getD 0 0)

/-- `TEXTData::from_bytes`: split at the first null byte. -/
def TEXTData.from_bytes (d : List Nat) : Except String (List Nat × List Nat) :=
  match d.findIdx? (· == 0) with
  | none => .error "No null terminator found"
  | some null_pos => .ok (d.take null_pos, d.drop (null_pos + 1))

/-- `ZTXTData::from_bytes`: keyword, compression method byte, payload. -/
def ZTXTData.from_bytes (d : List Nat) : Except String (List Nat × Nat × List Nat) :=
  match d.findIdx? (· == 0) with
  | none => .error "No null terminator found"
  | some null_pos =>
    if null_pos + 1 ≥ d.length then .error "Insufficient data for zTXt"
    else .ok (d.take null_pos, d.getD (null_pos + 1) 0, d.drop (null_pos + 2))

/-- `ITXTData::from_bytes`: keyword, two flag bytes, language tag,
translated keyword, text. -/
def ITXTData.from_bytes (d : List Nat) :
    Except String (List Nat × Nat × Nat × List Nat × List Nat × List Nat) :=
  match d.findIdx? (· == 0) with
  | none => .error "No null terminator found"
  | some null_pos =>
    if null_pos + 3 ≥ d.length then .error "Insufficient data for iTXt"
    else
      let compression_flag := d.getD (null_pos + 1) 0
      let compression_method := d.getD (null_pos + 2) 0
      let rest1 := d.drop (null_pos + 3)
      match rest1.findIdx? (· == 0) with
      | none => .error "No language tag terminator found"
      | some lang_pos =>
        let rest2 := rest1.drop (lang_pos + 1)
        match rest2.findIdx? (· == 0) with
        | none => .error "No translated keyword terminator found"
        | some trans_pos =>
          .ok (d.take null_pos, compression_flag, compression_method,
            rest1.take lang_pos, rest2.take trans_pos, rest2.drop (trans_pos + 1))

structure ParserState where
  chunks : List (Nat × PNGChunk)
  ihdr : Option IHDRData
  palette : Option (List (Nat × Nat × Nat))
  transparency : Option TRNSData
  gamma : Option Nat
  chroma : Option (List Nat)
  srgb : Option Nat
  text_chunks : List (List Nat × List Nat)
  ztxt_chunks : List (List Nat × Nat × List Nat)
  itxt_chunks : List (List Nat × Nat × Nat × List Nat × List Nat × List Nat)

def ParserState.initial : ParserState := ⟨[], none, none, none, none, none, none, [], [], []⟩

/-- `PNGChunkParser::process_chunk` (src/png_chunks.rs lines 556-594):
decode the known chunk kinds into the parser state, then store the chunk.
Note there is no order checking: a `tRNS` before `IHDR` is silently
skipped, and nothing requires `IHDR` to come first. -/
def process_chunk (st : ParserState) (c : PNGChunk) : Except String ParserState := do
  let st2 ←
    if c.chunk_type = TYPE_IHDR then do
      let h ← IHDRData.from_bytes c.data
      pure { st with ihdr := some h }
    else if c.chunk_type = TYPE_PLTE then do
      let p ← PLTEData.from_bytes c.data
      pure { st with palette := some p }
    else if c.chunk_type = TYPE_tRNS then
      match st.ihdr with
      | some h => do
        let t ← TRNSData.from_bytes c.data h.color_type
        pure { st with transparency := some t }
      | none => pure st
    else if c.chunk_type = TYPE_gAMA then do
      let g ← GAMAData.from_bytes c.data
      pure { st with gamma := some g }
    else if c.chunk_type = TYPE_cHRM then do
      let ch ← CHRMData.from_bytes c.data
      pure { st with chroma := some ch }
    else if c.chunk_type = TYPE_sRGB then do
      let s ← SRGBData.from_bytes c.data
      pure { st with srgb := some s }
    else if c.chunk_type = TYPE_tEXt then do
      let t ← TEXTData.from_bytes c.data
      pure { st with text_chunks := st.text_chunks ++ [t] }
    else if c.chunk_type = TYPE_zTXt then do
      let t ← ZTXTData.from_bytes c.data
      pure { st with ztxt_chunks := st.ztxt_chunks ++ [t] }
    else if c.chunk_type = TYPE_iTXt then do
      let t ← ITXTData.from_bytes c.data
      pure { st with itxt_chunks := st.itxt_chunks ++ [t] }
    else pure st
  pure { st2 with chunks := st2.chunks ++ [(c.chunk_type, c)] }

/-- The chunk loop of `PNGChunkParser::parse` (src/png_chunks.rs lines
510-550).  `fuel` is a structural bound on the number of iterations: the
caller passes the total byte count and every iteration consumes at least
12 bytes, so fuel never runs out before the input does. -/
def parse_chunk_loop (fuel : Nat) (rest : List Nat) (st : ParserState) :
    Except String ParserState :=
  match fuel with
  | 0 =>
    match rest with
    | [] => .ok st
    | _ => .error "Insufficient data for chunk header"
  | fuel + 1 =>
    match rest with
    | [] => .ok st
    | _ =>
      if rest.length < 8 then .error "Insufficient data for chunk header"
      else
        let len := be32 (rest.getD 0 0) (rest.getD 1 0) (rest.getD 2 0) (rest.getD 3 0)
        let ctype := be32 (rest.getD 4 0) (rest.getD 5 0) (rest.getD 6 0) (rest.getD 7 0)
        let body := rest.drop 8
        if body.length < len + 4 then .error "Insufficient data for chunk"
        else
          let chunk : PNGChunk :=
            ⟨len, ctype, body.take len,
             be32 (body.getD len 0) (body.getD (len + 1) 0)
               (body.getD (len + 2) 0) (body.getD (len + 3) 0)⟩
          if ¬ chunk.verify_crc then .error "Invalid CRC for chunk"
          else
            match process_chunk st chunk with
            | .error e => .error e
            | .ok st2 => parse_chunk_loop fuel (body.drop (len + 4)) st2

/-- `PNGChunkParser::parse` (src/png_chunks.rs lines 496-553): signature
check followed by the chunk loop, starting from the empty state. -/
def parse_png_chunks (data : List Nat) : Except String ParserState :=
  if data.length < 8 then .error "Insufficient data for PNG signature"
  else if ¬ (data.take 8 == PNG_SIGNATURE) then .error "Invalid PNG signature"
  else parse_chunk_loop data.length (data.drop 8) ParserState.initial

/-- A byte stream whose chunks are, in order: IDAT (one data byte), then
IHDR (1×1, bit depth 8, color type 6, not interlaced), then IEND — every
chunk carries a correct CRC, but IDAT precedes IHDR. -/
def idat_before_ihdr_stream : List Nat :=
  PNG_SIGNATURE ++ (PNGChunk.make TYPE_IDAT [0]).to_bytes
    ++ (PNGChunk.make TYPE_IHDR [0, 0, 0, 1, 0, 0, 0, 1, 8, 6, 0, 0, 0]).to_bytes
    ++ (PNGChunk.make TYPE_IEND []).to_bytes

/-- C7 (code bug): `PNGChunkParser::parse` performs no chunk-order
validation — no `UnexpectedChunkOrder` error exists anywhere in the code —
so a stream in which an IDAT chunk precedes the IHDR chunk parses
successfully (the chunks are stored in exactly that order) instead of
failing. -/
theorem parse_accepts_idat_before_ihdr :
    (parse_png_chunks idat_before_ihdr_stream).isOk = true
    ∧ (parse_png_chunks idat_before_ihdr_stream).toOption.map
        (fun st => st.chunks.map Prod.fst) = some [TYPE_IDAT, TYPE_IHDR, TYPE_IEND] := by
  constructor
  · rfl
  · rfl

/-! ## `PNG::pack` (src/lib.rs lines 457-475) and the signature check
(src/utils.rs lines 45-53) -/

/-- Shallow embedding of `PNG::pack`: if pixel data is present it is
returned unchanged — the admitted placeholder ("返回原始数据作为占位符")
performs no PNG encoding at all. -/
def PNG_pack (rgba_data : Option (List Nat)) : Except String (List Nat) :=
  match rgba_data with
  | none => .error "No image data to pack"
  | some d => .ok d

/-- Shallow embedding of `validate_png_signature` (src/utils.rs). -/
def validate_png_signature (data : List Nat) : Bool :=
  if data.length < 8 then false
  else data.take 8 == PNG_SIGNATURE

/-- C1 (code bug): for the valid 1×1 RGBA image with pixel
`(10, 20, 30, 255)`, `PNG::pack` returns the raw 4-byte pixel buffer — not
a PNG stream: it fails the repository's own signature check, and the
repository's chunk parser rejects it immediately, so `parse (pack m p)`
cannot succeed, let alone reproduce the metadata and pixels. -/
theorem pack_emits_no_png_stream :
    PNG_pack (some [10, 20, 30, 255]) = .ok [10, 20, 30, 255]
    ∧ validate_png_signature [10, 20, 30, 255] = false
    ∧ parse_png_chunks [10, 20, 30, 255] = .error "Insufficient data for PNG signature" := by
  refine ⟨rfl, rfl, rfl⟩
